import Mathlib

/-!
Verification of the data-access layer of the calibration-management
application (src/services/mockGasService.ts, HybridGasService and the
earlier MockGasService revision).

JavaScript values are embedded as follows: JSON-shaped response data is
the inductive type JVal; JS numbers are rationals; JS objects are
association lists written with last-assignment-wins semantics (setKey);
Math.round is jsRound; String.prototype.trim / toLowerCase / includes
are jsTrim / jsToLower / jsIncludes over the string's character list.
-/

/-- Character-level lower-casing fact: Char.ofNat returns the given
code point whenever it is below the surrogate range. -/
theorem char_toNat_ofNat (n : Nat) (h : n < 55296) : (Char.ofNat n).toNat = n := by
  unfold Char.ofNat
  rw [dif_pos (Or.inl h)]
  rfl

/-- Lower-casing a character twice is the same as lower-casing it once. -/
theorem char_toLower_toLower (c : Char) : c.toLower.toLower = c.toLower := by
  unfold Char.toLower
  by_cases h : c.toNat ≥ 65 ∧ c.toNat ≤ 90
  · rw [if_pos h]
    have h2 : (Char.ofNat (c.toNat + 32)).toNat = c.toNat + 32 :=
      char_toNat_ofNat _ (by omega)
    rw [if_neg (by rw [h2]; omega)]
  · rw [if_neg h, if_neg h]

/-- Lower-casing never produces the upper-case letter I. -/
theorem char_toLower_ne_upperI (c : Char) : c.toLower ≠ 'I' := by
  intro hc
  have hn : c.toLower.toNat = 73 := by rw [hc]; rfl
  unfold Char.toLower at hn
  by_cases h : c.toNat ≥ 65 ∧ c.toNat ≤ 90
  · rw [if_pos h] at hn
    rw [char_toNat_ofNat _ (by omega)] at hn
    omega
  · rw [if_neg h] at hn
    omega

/-- Embedding of JSON-shaped JavaScript values (transport responses). -/
inductive JVal where
  | str : String → JVal
  | num : ℚ → JVal
  | bool : Bool → JVal
  | null : JVal
  | arr : List JVal → JVal
  | obj : List (String × JVal) → JVal

/-- JavaScript object assignment newObj[k] = v on an association list:
if the key is already present its value is replaced in place, otherwise
the pair is appended. -/
def setKey {α : Type} : List (String × α) → String → α → List (String × α)
  | [], k, v => [(k, v)]
  | (k', v') :: t, k, v => if k' = k then (k, v) :: t else (k', v') :: setKey t k v

/-- Building a JavaScript object by assigning the listed key-value pairs
in order into an initially empty object. -/
def buildObj {α : Type} (l : List (String × α)) : List (String × α) :=
  l.foldl (fun acc p => setKey acc p.1 p.2) []

/-- Key rewriting used by normalizeData: key.charAt(0).toLowerCase() +
key.slice(1), with the special case "ID" -> "id"
(src/services/mockGasService.ts lines 60-64). -/
def normKey (k : String) : String :=
  if k = "ID" then "id"
  else match k.data with
    | [] => k
    | c :: cs => String.mk (Char.toLower c :: cs)

/-- Embedding of HybridGasService.normalizeData
(src/services/mockGasService.ts lines 54-71): arrays are normalized
elementwise, objects get every key rewritten by normKey with the
normalized value assigned (later duplicate target keys overwrite), and
every other value passes through unchanged. -/
def normalizeData : JVal → JVal
  | .str s => .str s
  | .num q => .num q
  | .bool b => .bool b
  | .null => .null
  | .arr l => .arr (l.attach.map (fun x => normalizeData x.1))
  | .obj l => .obj (buildObj (l.attach.map (fun x => (normKey x.1.1, normalizeData x.1.2))))
decreasing_by
  · have := List.sizeOf_lt_of_mem x.2
    simp_wf
    omega
  · obtain ⟨⟨k, v⟩, hm⟩ := x
    have := List.sizeOf_lt_of_mem hm
    simp_wf
    simp at this
    omega

/-- Unfolding equation of normalizeData on arrays. -/
theorem normalizeData_arr (l : List JVal) :
    normalizeData (.arr l) = .arr (l.map normalizeData) := by
  rw [normalizeData]
  rw [List.attach_map_coe]

/-- Unfolding equation of normalizeData on objects. -/
theorem normalizeData_obj (l : List (String × JVal)) :
    normalizeData (.obj l) =
      .obj (buildObj (l.map (fun p => (normKey p.1, normalizeData p.2)))) := by
  rw [normalizeData]
  congr 1
  congr 1
  rw [← List.attach_map_coe l (fun p => (normKey p.1, normalizeData p.2))]

/-- Keys of an association list. -/
def keysOf {α : Type} (l : List (String × α)) : List String := l.map Prod.fst

theorem mem_setKey {α : Type} (p : String × α) (l : List (String × α)) (k : String) (v : α) :
    p ∈ setKey l k v → p ∈ l ∨ p = (k, v) := by
  induction l with
  | nil => simp [setKey]
  | cons q t ih =>
    obtain ⟨k', v'⟩ := q
    simp only [setKey]
    split
    · intro hp
      rcases List.mem_cons.1 hp with h | h
      · exact Or.inr h
      · exact Or.inl (List.mem_cons_of_mem _ h)
    · intro hp
      rcases List.mem_cons.1 hp with h | h
      · exact Or.inl (h ▸ List.mem_cons_self _ _)
      · rcases ih h with h2 | h2
        · exact Or.inl (List.mem_cons_of_mem _ h2)
        · exact Or.inr h2

theorem setKey_of_not_mem {α : Type} (l : List (String × α)) (k : String) (v : α)
    (h : k ∉ keysOf l) : setKey l k v = l ++ [(k, v)] := by
  induction l with
  | nil => simp [setKey]
  | cons q t ih =>
    obtain ⟨k', v'⟩ := q
    simp only [keysOf, List.map_cons, List.mem_cons] at h
    push_neg at h
    simp only [setKey, if_neg (Ne.symm h.1), List.cons_append, List.cons.injEq, true_and]
    exact ih h.2

theorem keysOf_setKey {α : Type} (l : List (String × α)) (k : String) (v : α) :
    keysOf (setKey l k v) = if k ∈ keysOf l then keysOf l else keysOf l ++ [k] := by
  induction l with
  | nil => simp [setKey, keysOf]
  | cons q t ih =>
    obtain ⟨k', v'⟩ := q
    by_cases hk : k' = k
    · subst hk
      simp [setKey, keysOf]
    · simp only [setKey, if_neg hk, keysOf, List.map_cons]
      simp only [keysOf] at ih
      rw [ih]
      simp only [List.mem_cons]
      by_cases hm : k ∈ t.map Prod.fst
      · rw [if_pos hm, if_pos (Or.inr hm)]
      · rw [if_neg hm, if_neg (by
          intro hcon
          rcases hcon with h | h
          · exact hk h.symm
          · exact hm h)]
        simp

theorem keysOf_setKey_nodup {α : Type} (l : List (String × α)) (k : String) (v : α)
    (h : (keysOf l).Nodup) : (keysOf (setKey l k v)).Nodup := by
  rw [keysOf_setKey]
  by_cases hm : k ∈ keysOf l
  · rw [if_pos hm]; exact h
  · rw [if_neg hm]
    rw [List.nodup_append]
    refine ⟨h, List.nodup_singleton k, ?_⟩
    intro a ha hb
    simp only [List.mem_singleton] at hb
    exact hm (hb ▸ ha)

theorem foldl_setKey_mem {α : Type} :
    ∀ (m : List (String × α)) (acc : List (String × α)) (p : String × α),
      p ∈ m.foldl (fun a q => setKey a q.1 q.2) acc → p ∈ acc ∨ p ∈ m := by
  intro m
  induction m with
  | nil => intro acc p hp; exact Or.inl hp
  | cons q t ih =>
    intro acc p hp
    simp only [List.foldl_cons] at hp
    rcases ih _ p hp with h | h
    · rcases mem_setKey p acc q.1 q.2 h with h2 | h2
      · exact Or.inl h2
      · exact Or.inr (List.mem_cons.2 (Or.inl (by rw [h2])))
    · exact Or.inr (List.mem_cons_of_mem _ h)

theorem foldl_setKey_keys_nodup {α : Type} :
    ∀ (m : List (String × α)) (acc : List (String × α)),
      (keysOf acc).Nodup → (keysOf (m.foldl (fun a q => setKey a q.1 q.2) acc)).Nodup := by
  intro m
  induction m with
  | nil => intro acc h; exact h
  | cons q t ih =>
    intro acc h
    simp only [List.foldl_cons]
    exact ih _ (keysOf_setKey_nodup acc q.1 q.2 h)

theorem foldl_setKey_id {α : Type} :
    ∀ (m acc : List (String × α)), (keysOf (acc ++ m)).Nodup →
      m.foldl (fun a q => setKey a q.1 q.2) acc = acc ++ m := by
  intro m
  induction m with
  | nil => intro acc _; simp
  | cons q t ih =>
    intro acc h
    have hk : q.1 ∉ keysOf acc := by
      intro hcon
      simp only [keysOf, List.map_append, List.nodup_append] at h
      exact h.2.2 hcon (by simp)
    simp only [List.foldl_cons]
    rw [setKey_of_not_mem acc q.1 q.2 hk]
    have he : acc ++ [(q.1, q.2)] = acc ++ [q] := by simp
    rw [he, ih (acc ++ [q]) (by simpa using h)]
    simp

theorem buildObj_keys_nodup {α : Type} (m : List (String × α)) :
    (keysOf (buildObj m)).Nodup :=
  foldl_setKey_keys_nodup m [] (by simp [keysOf])

theorem buildObj_of_nodup {α : Type} (m : List (String × α))
    (h : (keysOf m).Nodup) : buildObj m = m := by
  have := foldl_setKey_id m [] (by simpa [keysOf] using h)
  simpa [buildObj] using this

theorem mem_buildObj {α : Type} (m : List (String × α)) (p : String × α)
    (h : p ∈ buildObj m) : p ∈ m := by
  rcases foldl_setKey_mem m [] p h with h2 | h2
  · simp at h2
  · exact h2

/-- Rewriting a key twice gives the same result as rewriting it once. -/
theorem normKey_idem (k : String) : normKey (normKey k) = normKey k := by
  by_cases h : k = "ID"
  · subst h; decide
  · rcases hd : k.data with _ | ⟨c, cs⟩
    · have he : normKey k = k := by simp [normKey, h, hd]
      rw [he, he]
    · have he : normKey k = String.mk (c.toLower :: cs) := by simp [normKey, h, hd]
      rw [he]
      have hne : String.mk (c.toLower :: cs) ≠ "ID" := by
        intro hcon
        have hdata : c.toLower :: cs = ['I', 'D'] := by
          have := congrArg String.data hcon
          simpa using this
        exact char_toLower_ne_upperI c (by
          have := List.head_eq_of_cons_eq hdata
          exact this)
      simp only [normKey, if_neg hne]
      rw [char_toLower_toLower]

/-- Size bound used for the well-founded induction below. -/
theorem normalizeData_normalizeData : ∀ (n : Nat) (x : JVal), sizeOf x ≤ n →
    normalizeData (normalizeData x) = normalizeData x := by
  intro n
  induction n with
  | zero =>
    intro x hx
    exfalso
    cases x <;> simp at hx
  | succ n ih =>
    intro x hx
    cases x with
    | str s => simp [normalizeData]
    | num q => simp [normalizeData]
    | bool b => simp [normalizeData]
    | null => simp [normalizeData]
    | arr l =>
      rw [normalizeData_arr, normalizeData_arr, List.map_map]
      congr 1
      apply List.map_congr_left
      intro a ha
      have h1 := List.sizeOf_lt_of_mem ha
      simp only [JVal.arr.sizeOf_spec] at hx
      simp only [Function.comp_apply]
      exact ih a (by omega)
    | obj l =>
      rw [normalizeData_obj, normalizeData_obj]
      congr 1
      have hfix : ∀ p ∈ buildObj (l.map (fun p => (normKey p.1, normalizeData p.2))),
          (normKey p.1, normalizeData p.2) = p := by
        intro p hp
        obtain ⟨q, hq, hqe⟩ := List.mem_map.1 (mem_buildObj _ p hp)
        have h1 := List.sizeOf_lt_of_mem hq
        simp only [JVal.obj.sizeOf_spec] at hx
        have h2 : sizeOf q.2 < sizeOf q := by
          obtain ⟨a, b⟩ := q
          simp
        rw [← hqe]
        simp only [Prod.mk.injEq]
        exact ⟨normKey_idem q.1, ih q.2 (by omega)⟩
      have hmap : (buildObj (l.map (fun p => (normKey p.1, normalizeData p.2)))).map
          (fun p => (normKey p.1, normalizeData p.2))
          = buildObj (l.map (fun p => (normKey p.1, normalizeData p.2))) := by
        rw [List.map_congr_left hfix]
        simp
      rw [hmap]
      exact buildObj_of_nodup _ (buildObj_keys_nodup _)

/-- C1: the key normalizer is idempotent; a record keyed "OrderNumber"
is rewritten to "orderNumber" and the literal key "ID" to "id";
normalization recurses into nested records and sequences and scalars
pass through unchanged. -/
theorem normalizeData_spec :
    (∀ x : JVal, normalizeData (normalizeData x) = normalizeData x)
    ∧ (∀ v, normalizeData (JVal.obj [("OrderNumber", v)])
        = JVal.obj [("orderNumber", normalizeData v)])
    ∧ (∀ v, normalizeData (JVal.obj [("ID", v)]) = JVal.obj [("id", normalizeData v)])
    ∧ (∀ l, normalizeData (JVal.arr l) = JVal.arr (l.map normalizeData))
    ∧ (∀ s, normalizeData (JVal.str s) = JVal.str s)
    ∧ (∀ q, normalizeData (JVal.num q) = JVal.num q)
    ∧ (∀ b, normalizeData (JVal.bool b) = JVal.bool b)
    ∧ normalizeData JVal.null = JVal.null := by
  refine ⟨fun x => normalizeData_normalizeData (sizeOf x) x le_rfl,
    ?_, ?_, ?_, ?_, ?_, ?_, by simp [normalizeData]⟩
  · intro v
    rw [normalizeData_obj]
    simp [buildObj, setKey, show normKey "OrderNumber" = "orderNumber" from by decide]
  · intro v
    rw [normalizeData_obj]
    simp [buildObj, setKey, show normKey "ID" = "id" from by decide]
  · exact normalizeData_arr
  · intro s; simp [normalizeData]
  · intro q; simp [normalizeData]
  · intro b; simp [normalizeData]

/-- JavaScript String.prototype.trim (over the character list; the
source calls .trim() on order numbers and password input). -/
def jsTrim (s : String) : String :=
  String.mk (((s.data.dropWhile Char.isWhitespace).reverse.dropWhile Char.isWhitespace).reverse)

/-- JavaScript String.prototype.toLowerCase (ASCII range). -/
def jsToLower (s : String) : String := String.mk (s.data.map Char.toLower)

/-- Character-list test: the first list begins with the second list. -/
def beginsWith : List Char → List Char → Bool
  | _, [] => true
  | [], _ :: _ => false
  | a :: as, b :: bs => a == b && beginsWith as bs

/-- Character-list substring test used to embed String.prototype.includes. -/
def hasSub (pat : List Char) : List Char → Bool
  | [] => beginsWith [] pat
  | c :: t => beginsWith (c :: t) pat || hasSub pat t

/-- JavaScript s.includes(pat). -/
def jsIncludes (s pat : String) : Bool := hasSub pat.data s.data

/-- Calibration status enum (Pending | Calibrating | Completed),
from the application's types module. -/
inductive CalibrationStatus where
  | pending
  | calibrating
  | completed
deriving DecidableEq

/-- Calibration type enum (Internal | External). -/
inductive CalibrationType where
  | internal
  | external
deriving DecidableEq

/-- Order line record as stored by the service: one line item of a
logical order, grouped by orderNumber.  Numeric JS fields are rationals.
Modelled from the spec for field names outside mockGasService.ts usage
(the types module is not among the sources); every field written or read
by the service operations is present. -/
structure Order where
  id : String := ""
  orderNumber : String := ""
  equipmentNumber : String := ""
  equipmentName : String := ""
  customerName : String := ""
  productId : String := ""
  productName : String := ""
  productSpec : String := ""
  category : String := ""
  calibrationType : CalibrationType := .internal
  quantity : ℚ := 0
  unitPrice : ℚ := 0
  discountRate : ℚ := 0
  totalAmount : ℚ := 0
  status : CalibrationStatus := .pending
  createDate : String := ""
  targetDate : String := ""
  technicians : List String := []
  isArchived : Bool := false
  notes : String := ""
  resurrectReason : Option String := none
deriving DecidableEq

/-- Validity predicate applied by HybridGasService.getOrders
(src/services/mockGasService.ts lines 244-250): a line is kept when its
orderNumber is truthy, not whitespace-only, not the literal header token
"ordernumber" (case-insensitively), and does not contain the substring
"ID, OrderNumber". -/
def gcKeep (o : Order) : Bool :=
  decide (o.orderNumber ≠ "") && decide (jsTrim o.orderNumber ≠ "") &&
  decide (jsToLower o.orderNumber ≠ "ordernumber") &&
  (!(jsIncludes o.orderNumber "ID, OrderNumber"))

/-- Read path of getOrders in local-mock mode over a stored collection:
the stored lines filtered by the validity predicate. -/
def getOrdersFromStore (store : List Order) : List Order := store.filter gcKeep

/-- Removal predicate exactly as the claim words it: orderNumber empty,
case-insensitively equal to "ordernumber", or containing
"ID, OrderNumber". -/
def specDropsLine (o : Order) : Bool :=
  decide (o.orderNumber = "") || decide (jsToLower o.orderNumber = "ordernumber") ||
  jsIncludes o.orderNumber "ID, OrderNumber"

/-- Removal predicate of the amended claim: additionally drops
whitespace-only order numbers (trim-empty). -/
def specDropsLineAmended (o : Order) : Bool :=
  decide (jsTrim o.orderNumber = "") || decide (jsToLower o.orderNumber = "ordernumber") ||
  jsIncludes o.orderNumber "ID, OrderNumber"

/-- Order line whose orderNumber is a single space: nonempty, hence kept
by the claim's removal predicate, but dropped by the code's filter. -/
def wsOrder : Order := { orderNumber := " " }

/-- C2 counterexample: the read-path filter does not remove exactly the
lines named by the claim; a line whose orderNumber is the single space
" " (nonempty, so outside the claim's removal set) is nevertheless
dropped, because the code also tests String(orderNumber).trim() !== ''. -/
theorem getOrders_filter_claim_cex :
    ¬ (∀ store : List Order,
        getOrdersFromStore store = store.filter (fun o => !(specDropsLine o))) := by
  intro h
  exact absurd (h [wsOrder]) (by decide)

/-- C2 (amended): the read path removes exactly the lines whose
orderNumber is empty or whitespace-only, case-insensitively equal to
"ordernumber", or containing "ID, OrderNumber", and leaves every other
line untouched in its original relative order (the result is a sublist
of the input). -/
theorem getOrders_filter_amended : ∀ store : List Order,
    getOrdersFromStore store = store.filter (fun o => !(specDropsLineAmended o))
    ∧ (getOrdersFromStore store).Sublist store := by
  intro store
  constructor
  · apply List.filter_congr
    intro o _
    by_cases h2 : jsTrim o.orderNumber = ""
    · have h1 : gcKeep o = false := by simp [gcKeep, h2]
      have h5 : specDropsLineAmended o = true := by simp [specDropsLineAmended, h2]
      rw [h1, h5]
      rfl
    · have hn : o.orderNumber ≠ "" := fun hh => h2 (by rw [hh]; rfl)
      by_cases h3 : jsToLower o.orderNumber = "ordernumber" <;>
        by_cases h4 : jsIncludes o.orderNumber "ID, OrderNumber" = true <;>
          simp [gcKeep, specDropsLineAmended, hn, h2, h3, h4]
  · exact List.filter_sublist store

/-- Transport selection outcome (gas = EmbeddedHost, api = HttpApi,
mock = LocalMock). -/
inductive EnvType where
  | gas
  | api
  | mock
deriving DecidableEq

/-- Runtime environment observed by the service: the truthiness of each
link of the window.google.script.run chain, and the configured API URL
(the empty string when VITE_GAS_API_URL is unset). -/
structure Env where
  windowDefined : Bool
  googleObj : Bool
  googleScript : Bool
  googleScriptRun : Bool
  apiUrl : String
deriving DecidableEq

/-- Embedding of HybridGasService.isGasEnvironment
(src/services/mockGasService.ts lines 33-40). -/
def isGasEnvironment (e : Env) : Bool :=
  e.windowDefined && e.googleObj && e.googleScript && e.googleScriptRun

/-- Embedding of HybridGasService.isApiEnvironment (lines 42-44):
a non-empty configured URL and not the embedded-host environment. -/
def isApiEnvironment (e : Env) : Bool :=
  (e.apiUrl != "") && !(isGasEnvironment e)

/-- Embedding of HybridGasService.getEnvironmentType (lines 46-50). -/
def getEnvironmentType (e : Env) : EnvType :=
  if isGasEnvironment e then .gas
  else if isApiEnvironment e then .api
  else .mock

/-- C3: transport selection is a pure function of the environment with
fixed priority: the embedded-host bridge wins, then a non-empty API
endpoint, then the local mock; when bridge and endpoint are both
present, the embedded host wins. -/
theorem getEnvironmentType_priority : ∀ e : Env,
    (isGasEnvironment e = true → getEnvironmentType e = .gas)
    ∧ (isGasEnvironment e = false → e.apiUrl ≠ "" → getEnvironmentType e = .api)
    ∧ (isGasEnvironment e = false → e.apiUrl = "" → getEnvironmentType e = .mock)
    ∧ (isGasEnvironment e = true → e.apiUrl ≠ "" → getEnvironmentType e = .gas) := by
  intro e
  refine ⟨?_, ?_, ?_, ?_⟩
  · intro h; simp [getEnvironmentType, h]
  · intro h h2; simp [getEnvironmentType, isApiEnvironment, h, h2]
  · intro h h2; simp [getEnvironmentType, isApiEnvironment, h, h2]
  · intro h h2; simp [getEnvironmentType, h]

/-- Environment with both the embedded bridge and a configured URL. -/
def envGasBoth : Env := ⟨true, true, true, true, "https://example"⟩

/-- Environment with only a configured URL. -/
def envApiOnly : Env := ⟨false, false, false, false, "https://example"⟩

/-- Environment with neither bridge nor URL. -/
def envNone : Env := ⟨false, false, false, false, ""⟩

/-- Witness for C3 at concrete environments: bridge plus endpoint picks
gas, endpoint alone picks api, nothing picks mock. -/
theorem getEnvironmentType_priority_witness :
    getEnvironmentType envGasBoth = EnvType.gas
    ∧ getEnvironmentType envApiOnly = EnvType.api
    ∧ getEnvironmentType envNone = EnvType.mock :=
  ⟨(getEnvironmentType_priority envGasBoth).2.2.2 (by decide) (by decide),
   (getEnvironmentType_priority envApiOnly).2.1 (by decide) (by decide),
   (getEnvironmentType_priority envNone).2.2.1 (by decide) (by decide)⟩

/-- JavaScript Math.round: half-up rounding, floor of x + 1/2. -/
def jsRound (q : ℚ) : ℤ := ⌊q + 1 / 2⌋

/-- One created order line of HybridGasService.createOrders
(src/services/mockGasService.ts lines 267-274): the payload spread with
the generated id, the manual order number, the derived totalAmount
Math.round(unitPrice * quantity * (discountRate / 100)), the creation
timestamp and isArchived false. -/
def mkNewOrder (idStr : String) (now no : String) (d : Order) : Order :=
  { d with
    id := idStr
    orderNumber := no
    totalAmount := ((jsRound (d.unitPrice * d.quantity * (d.discountRate / 100)) : ℤ) : ℚ)
    createDate := now
    isArchived := false }

/-- Created lines, in payload order, with positionally generated ids. -/
def mkNewOrders (ids : Nat → String) (now no : String) : Nat → List Order → List Order
  | _, [] => []
  | i, d :: t => mkNewOrder (ids i) now no d :: mkNewOrders ids now no (i + 1) t

/-- Embedding of HybridGasService.createOrders in local-mock mode
(lines 261-276): the new lines are prepended to the (validity-filtered)
existing collection and the result is stored. -/
def createOrders (ids : Nat → String) (now : String) (store : List Order)
    (ordersData : List Order) (manualOrderNumber : String) : List Order :=
  mkNewOrders ids now manualOrderNumber 0 ordersData ++ getOrdersFromStore store

/-- Embedding of HybridGasService.updateOrderStatusByNo in local-mock
mode (lines 278-290): every line sharing the order number gets the new
status, and is archived when the new status is Completed; the rewritten
(validity-filtered) collection is stored. -/
def updateOrderStatusByNo (store : List Order) (orderNumber : String)
    (newStatus : CalibrationStatus) : List Order :=
  (getOrdersFromStore store).map (fun o =>
    if o.orderNumber = orderNumber then
      { o with
        status := newStatus
        isArchived := if newStatus = .completed then true else o.isArchived }
    else o)

/-- Embedding of HybridGasService.updateOrderNotesByNo (lines 292-299). -/
def updateOrderNotesByNo (store : List Order) (orderNumber notes : String) : List Order :=
  (getOrdersFromStore store).map (fun o =>
    if o.orderNumber = orderNumber then { o with notes := notes } else o)

/-- Embedding of HybridGasService.updateOrderTargetDateByNo
(lines 301-308); toIso abstracts new Date(newDate).toISOString(). -/
def updateOrderTargetDateByNo (toIso : String → String) (store : List Order)
    (orderNumber newDate : String) : List Order :=
  (getOrdersFromStore store).map (fun o =>
    if o.orderNumber = orderNumber then { o with targetDate := toIso newDate } else o)

/-- Embedding of HybridGasService.restoreOrderByNo (lines 310-323):
matching lines are unarchived, reset to Pending and stamped with the
resurrect reason. -/
def restoreOrderByNo (store : List Order) (orderNumber reason : String) : List Order :=
  (getOrdersFromStore store).map (fun o =>
    if o.orderNumber = orderNumber then
      { o with isArchived := false, status := .pending, resurrectReason := some reason }
    else o)

/-- Embedding of the earlier MockGasService.restoreOrderByNo revision
(lines 651-671): same field resets, and the reason is additionally
appended to the notes; that revision's getOrders applies no validity
filter. -/
def restoreOrderByNoV2 (store : List Order) (orderNumber reason : String) : List Order :=
  store.map (fun o =>
    if o.orderNumber = orderNumber then
      { o with
        isArchived := false
        status := .pending
        resurrectReason := some reason
        notes := if o.notes = "" then "(復活: " ++ reason ++ ")"
                 else o.notes ++ " (復活: " ++ reason ++ ")" }
    else o)

/-- Embedding of HybridGasService.deleteOrderByNo (lines 325-331). -/
def deleteOrderByNo (store : List Order) (orderNumber : String) : List Order :=
  (getOrdersFromStore store).filter (fun o => decide (o.orderNumber ≠ orderNumber))

theorem mkNewOrders_length (ids : Nat → String) (now no : String) :
    ∀ (i : Nat) (l : List Order), (mkNewOrders ids now no i l).length = l.length := by
  intro i l
  induction l generalizing i with
  | nil => rfl
  | cons d t ih => simp [mkNewOrders, ih]

theorem mkNewOrders_totalAmount (ids : Nat → String) (now no : String) :
    ∀ (i : Nat) (l : List Order),
      (mkNewOrders ids now no i l).map (fun o => o.totalAmount)
        = l.map (fun d => ((jsRound (d.unitPrice * d.quantity * (d.discountRate / 100)) : ℤ) : ℚ)) := by
  intro i l
  induction l generalizing i with
  | nil => rfl
  | cons d t ih => simp [mkNewOrders, mkNewOrder, ih]

/-- C4: every line created by createOrders carries
totalAmount = round(unitPrice * quantity * discountRate / 100); in
particular unitPrice 1000, quantity 2, discountRate 90 yields 1800. -/
theorem createOrders_totalAmount :
    (∀ (ids : Nat → String) (now : String) (store ordersData : List Order) (no : String),
      ((createOrders ids now store ordersData no).take ordersData.length).map
          (fun o => o.totalAmount)
        = ordersData.map
            (fun d => ((jsRound (d.unitPrice * d.quantity * (d.discountRate / 100)) : ℤ) : ℚ)))
    ∧ jsRound ((1000 : ℚ) * 2 * (90 / 100)) = 1800 := by
  constructor
  · intro ids now store ordersData no
    rw [createOrders, ← mkNewOrders_length ids now no 0 ordersData, List.take_left]
    exact mkNewOrders_totalAmount ids now no 0 ordersData
  · have he : ((1000 : ℚ) * 2 * (90 / 100)) = 1800 := by norm_num
    rw [jsRound, he, Int.floor_eq_iff]
    constructor <;> norm_num

/-- Order line used in counterexamples: archived, Completed, number A. -/
def ordA : Order := { orderNumber := "A", status := .completed, isArchived := true }

/-- Result of updating ordA to Pending: status Pending, still archived. -/
def ordA' : Order := { orderNumber := "A", status := .pending, isArchived := true }

/-- C5 counterexample: updateOrderStatusByNo does not keep isArchived in
lockstep with status = Completed; updating an archived Completed line to
Pending leaves isArchived = true while status becomes Pending, because
the code only sets isArchived on the Completed branch and never clears
it. -/
theorem updateOrderStatus_archived_iff_cex :
    ¬ (∀ (store : List Order) (no : String) (s : CalibrationStatus),
        ∀ o ∈ updateOrderStatusByNo store no s, o.orderNumber = no →
          (o.isArchived = true ↔ o.status = .completed)) := by
  intro h
  have h2 := h [ordA] "A" .pending ordA' (by decide) (by decide)
  exact absurd h2 (by decide)

/-- C5 (amended): after updateOrderStatusByNo every affected line has
the new status, and isArchived is set to true when the new status is
Completed and otherwise keeps its previous value (so a previously
archived line stays archived when moved away from Completed);
unaffected lines are unchanged; restoreOrderByNo resets isArchived to
false while forcing status back to Pending on every affected line. -/
theorem updateOrderStatus_archive_amended :
    ∀ (store : List Order) (no : String) (s : CalibrationStatus) (r : String),
      List.Forall₂ (fun o o' =>
          (o.orderNumber = no →
            o'.status = s ∧ o'.isArchived = (if s = .completed then true else o.isArchived))
          ∧ (o.orderNumber ≠ no → o' = o))
        (getOrdersFromStore store) (updateOrderStatusByNo store no s)
      ∧ List.Forall₂ (fun o o' =>
          (o.orderNumber = no →
            o'.isArchived = false ∧ o'.status = .pending ∧ o'.resurrectReason = some r)
          ∧ (o.orderNumber ≠ no → o' = o))
        (getOrdersFromStore store) (restoreOrderByNo store no r) := by
  intro store no s r
  constructor
  · rw [updateOrderStatusByNo, List.forall₂_map_right_iff, List.forall₂_same]
    intro o _
    constructor
    · intro h
      rw [if_pos h]
      exact ⟨rfl, rfl⟩
    · intro h
      rw [if_neg h]
  · rw [restoreOrderByNo, List.forall₂_map_right_iff, List.forall₂_same]
    intro o _
    constructor
    · intro h
      rw [if_pos h]
      exact ⟨rfl, rfl, rfl⟩
    · intro h
      rw [if_neg h]

/-- HTTP response envelope {success, status, error, data} of the API
transport (spec section 6; src/services/mockGasService.ts line 85). -/
structure ApiResponse where
  success : Bool
  status : Option String
  error : Option String
  data : JVal

/-- Truthiness of an optional JS string: absent and "" are falsy. -/
def jsTruthyStr : Option String → Bool
  | none => false
  | some s => decide (s ≠ "")

/-- Whether an Except value is the error case. -/
def isErr {ε α : Type} : Except ε α → Bool
  | .error _ => true
  | .ok _ => false

/-- Embedding of HybridGasService.callApi's envelope handling
(src/services/mockGasService.ts lines 74-106): throws when success is
falsy and (status === 'error' or error is truthy), with message
json.error || 'API Error'; otherwise returns the key-normalized data
field. -/
def callApi (r : ApiResponse) : Except String JVal :=
  if !r.success && (decide (r.status = some "error") || jsTruthyStr r.error) then
    .error (match r.error with
      | some e => if e = "" then "API Error" else e
      | none => "API Error")
  else .ok (normalizeData r.data)

/-- Envelope with success false, status "ok", error present but empty,
and data keyed "ID". -/
def rTruthy : ApiResponse :=
  ⟨false, some "ok", some "", JVal.obj [("ID", JVal.null)]⟩

theorem callApi_rTruthy : callApi rTruthy = .ok (JVal.obj [("id", JVal.null)]) := by
  have hd : normalizeData (JVal.obj [("ID", JVal.null)]) = JVal.obj [("id", JVal.null)] := by
    rw [normalizeData_obj]
    simp [buildObj, setKey, show normKey "ID" = "id" from by decide,
      show normalizeData JVal.null = JVal.null from by simp [normalizeData]]
  simp [callApi, rTruthy, jsTruthyStr, hd]

/-- C6 counterexample: the envelope rTruthy has success false and an
error field present, so the claim says the adapter fails, but the code
tests the error field for JS truthiness (an empty string does not
count), succeeds, and moreover returns the key-normalized data instead
of the raw data field. -/
theorem callApi_claim_cex :
    (¬ (∀ r : ApiResponse,
        (isErr (callApi r) = true ↔
          (r.success = false ∧ (r.status = some "error" ∨ r.error ≠ none)))
        ∧ (isErr (callApi r) = false → callApi r = .ok r.data)))
    ∧ callApi rTruthy ≠ .ok rTruthy.data := by
  constructor
  · intro h
    have h2 := (h rTruthy).1
    have h4 : isErr (callApi rTruthy) = true := h2.mpr ⟨rfl, Or.inr (by decide)⟩
    rw [callApi_rTruthy] at h4
    simp [isErr] at h4
  · intro h
    rw [callApi_rTruthy] at h
    simp [rTruthy] at h

/-- C6 (amended): the HTTP-API adapter fails exactly when the envelope
has success false and (status equals "error" or the error field is
present with a non-empty message); every other envelope yields the
key-normalized data field. -/
theorem callApi_amended : ∀ r : ApiResponse,
    (isErr (callApi r) = true ↔
      (r.success = false ∧ (r.status = some "error" ∨ (∃ e, r.error = some e ∧ e ≠ ""))))
    ∧ (isErr (callApi r) = false → callApi r = .ok (normalizeData r.data)) := by
  intro r
  constructor
  · constructor
    · intro h
      by_cases hc : (!r.success && (decide (r.status = some "error") || jsTruthyStr r.error)) = true
      · simp only [Bool.and_eq_true, Bool.not_eq_true', Bool.or_eq_true,
          decide_eq_true_eq] at hc
        refine ⟨hc.1, ?_⟩
        rcases hc.2 with h2 | h2
        · exact Or.inl h2
        · right
          cases he : r.error with
          | none => rw [he] at h2; simp [jsTruthyStr] at h2
          | some e =>
            refine ⟨e, rfl, ?_⟩
            rw [he] at h2
            simpa [jsTruthyStr] using h2
      · rw [callApi, if_neg hc] at h
        simp [isErr] at h
    · intro hp
      have hc : (!r.success && (decide (r.status = some "error") || jsTruthyStr r.error)) = true := by
        simp only [Bool.and_eq_true, Bool.not_eq_true', Bool.or_eq_true, decide_eq_true_eq]
        refine ⟨hp.1, ?_⟩
        rcases hp.2 with h2 | ⟨e, he, hne⟩
        · exact Or.inl h2
        · right
          simp [jsTruthyStr, he, hne]
      rw [callApi, if_pos hc]
      rfl
  · intro h
    by_cases hc : (!r.success && (decide (r.status = some "error") || jsTruthyStr r.error)) = true
    · rw [callApi, if_pos hc] at h
      simp [isErr] at h
    · rw [callApi, if_neg hc]

/-- Witness for C6 (amended) at the concrete envelope rTruthy: the
adapter does not fail there and returns the normalized data field. -/
theorem callApi_amended_witness : callApi rTruthy = .ok (normalizeData rTruthy.data) :=
  (callApi_amended rTruthy).2 (by rw [callApi_rTruthy]; rfl)

/-- Archived Completed order line with number X. -/
def ordX : Order := { orderNumber := "X", status := .completed, isArchived := true }

/-- The line ordX after restoration with reason "mistake". -/
def ordXr : Order :=
  { orderNumber := "X", status := .pending, isArchived := false,
    resurrectReason := some "mistake" }

/-- C7: restoreOrderByNo (both service revisions) sets, on every line
whose orderNumber equals the given number — archived and Completed
lines included — isArchived to false, status to Pending, and
resurrectReason to the given reason. -/
theorem restoreOrderByNo_fields :
    (∀ (store : List Order) (no r : String) (o : Order),
        o ∈ restoreOrderByNo store no r → o.orderNumber = no →
          o.isArchived = false ∧ o.status = .pending ∧ o.resurrectReason = some r)
    ∧ (∀ (store : List Order) (no r : String) (o : Order),
        o ∈ restoreOrderByNoV2 store no r → o.orderNumber = no →
          o.isArchived = false ∧ o.status = .pending ∧ o.resurrectReason = some r) := by
  constructor
  · intro store no r o hm he
    rw [restoreOrderByNo] at hm
    obtain ⟨a, _, hae⟩ := List.mem_map.1 hm
    by_cases h : a.orderNumber = no
    · rw [if_pos h] at hae
      rw [← hae]
      exact ⟨rfl, rfl, rfl⟩
    · rw [if_neg h] at hae
      rw [← hae] at he
      exact absurd he h
  · intro store no r o hm he
    rw [restoreOrderByNoV2] at hm
    obtain ⟨a, _, hae⟩ := List.mem_map.1 hm
    by_cases h : a.orderNumber = no
    · rw [if_pos h] at hae
      rw [← hae]
      exact ⟨rfl, rfl, rfl⟩
    · rw [if_neg h] at hae
      rw [← hae] at he
      exact absurd he h

/-- Witness for C7: restoring the concrete archived Completed line ordX
by its number produces the unarchived Pending line carrying the reason. -/
theorem restoreOrderByNo_fields_witness :
    ordXr.isArchived = false ∧ ordXr.status = .pending
    ∧ ordXr.resurrectReason = some "mistake" :=
  restoreOrderByNo_fields.1 [ordX] "X" "mistake" ordXr (by decide) (by decide)

theorem filter_map_frame (l : List Order) (f : Order → Order) (no : String)
    (hfix : ∀ o, o.orderNumber ≠ no → f o = o)
    (hnum : ∀ o, (f o).orderNumber = o.orderNumber) :
    (l.map f).filter (fun o => decide (o.orderNumber ≠ no))
      = l.filter (fun o => decide (o.orderNumber ≠ no)) := by
  induction l with
  | nil => rfl
  | cons a t ih =>
    rw [List.map_cons, List.filter_cons, List.filter_cons]
    by_cases h : a.orderNumber = no
    · have h2 : (f a).orderNumber = no := by rw [hnum, h]
      rw [if_neg (by simp [h2]), if_neg (by simp [h]), ih]
    · rw [hfix a h, if_pos (by simp [h]), ih, if_pos (by simp [h])]

/-- Header-artifact line whose orderNumber is the literal token. -/
def junkOrd : Order := { orderNumber := "ordernumber" }

/-- C8 counterexample: the by-number operations do not leave every line
with a different orderNumber unchanged: they rewrite the store from the
validity-filtered read, so an invalid line (orderNumber "ordernumber",
different from the targeted "A") is silently removed, here by
deleteOrderByNo. -/
theorem byNo_frame_cex :
    ¬ (∀ (store : List Order) (no : String),
        (∀ s, (updateOrderStatusByNo store no s).filter (fun o => decide (o.orderNumber ≠ no))
            = store.filter (fun o => decide (o.orderNumber ≠ no)))
        ∧ (∀ notes, (updateOrderNotesByNo store no notes).filter
              (fun o => decide (o.orderNumber ≠ no))
            = store.filter (fun o => decide (o.orderNumber ≠ no)))
        ∧ (∀ (toIso : String → String) d,
            (updateOrderTargetDateByNo toIso store no d).filter
              (fun o => decide (o.orderNumber ≠ no))
            = store.filter (fun o => decide (o.orderNumber ≠ no)))
        ∧ (∀ r, (restoreOrderByNo store no r).filter (fun o => decide (o.orderNumber ≠ no))
            = store.filter (fun o => decide (o.orderNumber ≠ no)))
        ∧ deleteOrderByNo store no = store.filter (fun o => decide (o.orderNumber ≠ no))) := by
  intro h
  have h2 := (h [junkOrd] "A").2.2.2.2
  exact absurd h2 (by decide)

/-- C8 (amended): relative to the validity-filtered collection the
operations read, every "by order number" batch operation leaves the
lines whose orderNumber differs from the given number byte-for-byte
unchanged and in their original relative order, and delete removes
precisely the (valid) lines whose orderNumber equals it; lines failing
the read-path validity filter are dropped by any of these operations,
since each rewrites the store from the filtered read. -/
theorem byNo_frame_amended : ∀ (store : List Order) (no : String),
    (∀ s, (updateOrderStatusByNo store no s).filter (fun o => decide (o.orderNumber ≠ no))
        = (getOrdersFromStore store).filter (fun o => decide (o.orderNumber ≠ no)))
    ∧ (∀ notes, (updateOrderNotesByNo store no notes).filter
          (fun o => decide (o.orderNumber ≠ no))
        = (getOrdersFromStore store).filter (fun o => decide (o.orderNumber ≠ no)))
    ∧ (∀ (toIso : String → String) d,
        (updateOrderTargetDateByNo toIso store no d).filter
          (fun o => decide (o.orderNumber ≠ no))
        = (getOrdersFromStore store).filter (fun o => decide (o.orderNumber ≠ no)))
    ∧ (∀ r, (restoreOrderByNo store no r).filter (fun o => decide (o.orderNumber ≠ no))
        = (getOrdersFromStore store).filter (fun o => decide (o.orderNumber ≠ no)))
    ∧ deleteOrderByNo store no
        = (getOrdersFromStore store).filter (fun o => decide (o.orderNumber ≠ no)) := by
  intro store no
  refine ⟨?_, ?_, ?_, ?_, rfl⟩
  · intro s
    rw [updateOrderStatusByNo]
    apply filter_map_frame
    · intro o h
      rw [if_neg h]
    · intro o
      by_cases h : o.orderNumber = no
      · rw [if_pos h]
      · rw [if_neg h]
  · intro notes
    rw [updateOrderNotesByNo]
    apply filter_map_frame
    · intro o h
      rw [if_neg h]
    · intro o
      by_cases h : o.orderNumber = no
      · rw [if_pos h]
      · rw [if_neg h]
  · intro toIso d
    rw [updateOrderTargetDateByNo]
    apply filter_map_frame
    · intro o h
      rw [if_neg h]
    · intro o
      by_cases h : o.orderNumber = no
      · rw [if_pos h]
      · rw [if_neg h]
  · intro r
    rw [restoreOrderByNo]
    apply filter_map_frame
    · intro o h
      rw [if_neg h]
    · intro o
      by_cases h : o.orderNumber = no
      · rw [if_pos h]
      · rw [if_neg h]

/-- Lookup in an association list. -/
def lookupKey {α : Type} : List (String × α) → String → Option α
  | [], _ => none
  | (k', v) :: t, k => if k' = k then some v else lookupKey t k

/-- Removal of a key from an association list. -/
def removeKey {α : Type} : List (String × α) → String → List (String × α)
  | [], _ => []
  | p :: t, k => if p.1 = k then removeKey t k else p :: removeKey t k

/-- Modelled from the spec: the Cache Layer of spec section 4.4 is not
present under src/; set(key, value) stores the value with the current
timestamp, overwriting any prior entry. -/
def cacheSet {α : Type} (c : List (String × α × Nat)) (k : String) (v : α) (now : Nat) :
    List (String × α × Nat) := setKey c k (v, now)

/-- Modelled from the spec: the Cache Layer of spec section 4.4 is not
present under src/; get(key) returns absent if never set or if
now − storedAt > TTL, evicting the expired entry on that read, and the
stored value otherwise. -/
def cacheGet {α : Type} (ttl : Nat) (c : List (String × α × Nat)) (k : String) (now : Nat) :
    Option α × List (String × α × Nat) :=
  match lookupKey c k with
  | none => (none, c)
  | some (v, t) => if now - t > ttl then (none, removeKey c k) else (some v, c)

theorem lookupKey_setKey_self {α : Type} (c : List (String × α)) (k : String) (v : α) :
    lookupKey (setKey c k v) k = some v := by
  induction c with
  | nil => simp [setKey, lookupKey]
  | cons p t ih =>
    obtain ⟨k', v'⟩ := p
    rw [setKey]
    by_cases h : k' = k
    · rw [if_pos h, lookupKey, if_pos rfl]
    · rw [if_neg h, lookupKey, if_neg h]
      exact ih

theorem lookupKey_removeKey_self {α : Type} (c : List (String × α)) (k : String) :
    lookupKey (removeKey c k) k = none := by
  induction c with
  | nil => rfl
  | cons p t ih =>
    rw [removeKey]
    by_cases h : p.1 = k
    · rw [if_pos h]
      exact ih
    · rw [if_neg h]
      obtain ⟨k', v'⟩ := p
      rw [lookupKey, if_neg h]
      exact ih

/-- C9: for a key stored by set at time t, get returns absent once
now > t + TTL (evicting the expired entry on that read), never returns
absent strictly before that boundary, and get of a key never set
returns absent.  Modelled from the spec (section 4.4); no cache code
exists under src/. -/
theorem cache_ttl_spec :
    ∀ (α : Type) (ttl : Nat) (c : List (String × α × Nat)) (k : String) (v : α) (t now : Nat),
      (now > t + ttl →
        (cacheGet ttl (cacheSet c k v t) k now).1 = none
        ∧ lookupKey (cacheGet ttl (cacheSet c k v t) k now).2 k = none)
      ∧ (now < t + ttl → (cacheGet ttl (cacheSet c k v t) k now).1 = some v)
      ∧ (∀ k', lookupKey c k' = none → (cacheGet ttl c k' now).1 = none) := by
  intro α ttl c k v t now
  refine ⟨?_, ?_, ?_⟩
  · intro h
    rw [cacheSet]
    simp only [cacheGet, lookupKey_setKey_self]
    rw [if_pos (by omega)]
    exact ⟨rfl, lookupKey_removeKey_self _ k⟩
  · intro h
    rw [cacheSet]
    simp only [cacheGet, lookupKey_setKey_self]
    rw [if_neg (by omega)]
  · intro k' h
    simp only [cacheGet, h]

/-- Witness for C9 with TTL 300: a value set at time 0 is absent (and
evicted) at time 301, still present at time 299, and a never-set key is
absent. -/
theorem cache_ttl_spec_witness :
    ((cacheGet 300 (cacheSet ([] : List (String × Nat × Nat)) "orders" 7 0) "orders" 301).1 = none
      ∧ lookupKey
          (cacheGet 300 (cacheSet ([] : List (String × Nat × Nat)) "orders" 7 0) "orders" 301).2
          "orders" = none)
    ∧ (cacheGet 300 (cacheSet ([] : List (String × Nat × Nat)) "orders" 7 0) "orders" 299).1
        = some 7
    ∧ (cacheGet 300 ([] : List (String × Nat × Nat)) "orders" 299).1 = none :=
  ⟨(cache_ttl_spec Nat 300 [] "orders" 7 0 301).1 (by decide),
   (cache_ttl_spec Nat 300 [] "orders" 7 0 299).2.1 (by decide),
   (cache_ttl_spec Nat 300 [] "orders" 7 0 299).2.2 "orders" rfl⟩

/-- Effective stored password of the local-mock password check:
localStorage value with null and "" falling back to the default "0000"
(the expression stored || '0000'). -/
def effectivePwd : Option String → String
  | none => "0000"
  | some s => if s = "" then "0000" else s

/-- Embedding of HybridGasService.checkAdminPassword in local-mock mode
(src/services/mockGasService.ts lines 134-142): the trimmed input is
compared with the effective stored password. -/
def checkAdminPassword (stored : Option String) (input : String) : Bool :=
  decide (jsTrim input = effectivePwd stored)

/-- Embedding of HybridGasService.changeAdminPassword in local-mock mode
(lines 144-155): on a successful old-password check the new password is
stored and true returned, otherwise false and the store is unchanged. -/
def changeAdminPassword (stored : Option String) (oldPwd newPwd : String) :
    Bool × Option String :=
  if checkAdminPassword stored oldPwd then (true, some newPwd) else (false, stored)

/-- C10 counterexample: with stored password "" and oldPwd "0000"
(which does not match the stored ""), changeAdminPassword succeeds and
replaces the store, because the code treats an empty stored password as
the default "0000" via stored || '0000'. -/
theorem changeAdminPassword_claim_cex :
    ¬ (∀ (p oldPwd newPwd : String), oldPwd ≠ p →
        changeAdminPassword (some p) oldPwd newPwd = (false, some p)
        ∧ checkAdminPassword (some p) p = true
        ∧ (checkAdminPassword (some p) newPwd = true → newPwd = p)) := by
  intro h
  have h2 := (h "" "0000" "9999" (by decide)).1
  exact absurd h2 (by decide)

/-- C10 (amended): whenever the trimmed oldPwd differs from the
effective stored password (the stored value p when non-empty, else the
default "0000"), changeAdminPassword returns false and leaves the store
unchanged, and a subsequent checkAdminPassword(x) returns true exactly
when the trimmed x equals that effective password — in particular
checkAdminPassword(newPwd) returns true only if trimmed newPwd equals
it. -/
theorem changeAdminPassword_amended :
    ∀ (p oldPwd newPwd : String), jsTrim oldPwd ≠ effectivePwd (some p) →
      changeAdminPassword (some p) oldPwd newPwd = (false, some p)
      ∧ (∀ x, checkAdminPassword (some p) x = true ↔ jsTrim x = effectivePwd (some p)) := by
  intro p oldPwd newPwd h
  constructor
  · rw [changeAdminPassword, if_neg (by simp [checkAdminPassword, h])]
  · intro x
    simp [checkAdminPassword]

/-- Witness for C10 (amended): with stored password "abc" and the
non-matching oldPwd "zzz", the change is refused, the store keeps
"abc", and the password check for "abc" still succeeds. -/
theorem changeAdminPassword_amended_witness :
    changeAdminPassword (some "abc") "zzz" "9999" = (false, some "abc")
    ∧ (checkAdminPassword (some "abc") "abc" = true
        ↔ jsTrim "abc" = effectivePwd (some "abc")) :=
  ⟨(changeAdminPassword_amended "abc" "zzz" "9999" (by decide)).1,
   (changeAdminPassword_amended "abc" "zzz" "9999" (by decide)).2 "abc"⟩
